import Mathlib

/-!
Shallow embedding of the Bazimn marketplace MVP server (`server.js`,
the single back-end file of the repository).  The server keeps four
in-memory collections (`users`, `gigs`, `orders`, `disputes`) and
mutates them in the request handler `handleRequest`; every API branch
of that handler is embedded below as a pure function from the server
state (plus the identity resolved from the bearer token, and the value
of `Date.now()`) to a response and a new state.  Persistence
(`writeJSON`) only mirrors the in-memory state and is not modelled;
the token store maps tokens to user ids, so operations here receive
the resolved `userId : Option String` directly (`none` = no valid
token, matching `userId = null` in the source).
-/

namespace Bazimn

/-- A JavaScript number as it arises in this server: a rational value,
or NaN (`none`), which `parseFloat` yields on unparsable input and
which propagates through `+`.  (JSON bodies cannot contain NaN or
Infinity, so inputs are rationals or strings.) -/
abbrev JsNum := Option ℚ

/-- Rational addition written through `mkRat` (definitionally
transparent to the kernel; `qadd_eq_add` below shows it is ordinary
`+` on `ℚ`). -/
def qadd (a b : ℚ) : ℚ := mkRat (a.num * b.den + b.num * a.den) (a.den * b.den)

/-- JavaScript `+` on numbers: NaN propagates. -/
def JsNum.add : JsNum → JsNum → JsNum
  | some a, some b => some (qadd a b)
  | _, _ => none

/-- A JSON value as it can appear in a request-body field that the
server only truthiness-checks (the gig `price` field). -/
inductive JsVal
  | num (q : ℚ)
  | str (s : String)
  | boolv (b : Bool)
  | nullv
  | undef
deriving DecidableEq

/-- JavaScript truthiness of a body field (`!price` in the source):
`0` and NaN-free rationals other than 0 are truthy, nonempty strings
are truthy, `false`/`null`/`undefined` are falsy. -/
def JsVal.truthy : JsVal → Bool
  | .num q => q != 0
  | .str s => s != ""
  | .boolv b => b
  | .nullv => false
  | .undef => false

/-- Digit character `d ↦ '0'+d` used by JS number printing/parsing. -/
def digitChar10 (d : ℕ) : Char := Char.ofNat (48 + d)

/-- Fuelled decimal digit list of a natural number, most significant
digit first; fuel `n+1` always suffices. -/
def natDigitsAux : ℕ → ℕ → List Char
  | 0, _ => []
  | fuel + 1, n =>
    if n < 10 then [digitChar10 n]
    else natDigitsAux fuel (n / 10) ++ [digitChar10 (n % 10)]

/-- Model of JS `Number.prototype.toString()` on the small naturals used
as identifiers: the usual decimal representation. -/
def jsToString (n : ℕ) : String := ⟨natDigitsAux (n + 1) n⟩

/-- Decimal fragment of JS `parseFloat` on a string: skips leading
whitespace, reads an optional sign, then decimal digits with an
optional fractional part, ignoring trailing characters; yields `none`
(NaN) when no digit is read.  Exponents, `Infinity` and hex forms are
not modelled (nothing in the claims uses them). -/
def parseFloatStr (s : String) : JsNum :=
  let cs := s.toList.dropWhile (fun c => c == ' ' || c == '\t' || c == '\n' || c == '\r')
  let sgn : ℤ := match cs with
    | '-' :: _ => -1
    | _ => 1
  let cs1 : List Char := match cs with
    | '-' :: rest => rest
    | '+' :: rest => rest
    | _ => cs
  let intPart := cs1.takeWhile Char.isDigit
  let rest := cs1.dropWhile Char.isDigit
  let fracPart : List Char := match rest with
    | '.' :: r => r.takeWhile Char.isDigit
    | _ => []
  if intPart = [] ∧ fracPart = [] then none
  else
    let iv : ℕ := intPart.foldl (fun a c => 10 * a + (c.toNat - 48)) 0
    let fv : ℕ := fracPart.foldl (fun a c => 10 * a + (c.toNat - 48)) 0
    -- the decimal `±iv.fv` as a rational: `sgn·(iv + fv/10^k)`
    some (mkRat (sgn * (iv * 10 ^ fracPart.length + fv)) (10 ^ fracPart.length))

/-- JS `parseFloat(x)` on a body field: numbers print and re-parse to
themselves; strings go through the decimal parser; `true`/`false`/
`null`/`undefined` stringify to non-numeric words, hence NaN. -/
def JsVal.toNumber : JsVal → JsNum
  | .num q => some q
  | .str s => parseFloatStr s
  | .boolv _ => none
  | .nullv => none
  | .undef => none

/-- Mutate the first element satisfying `p` (the element returned by
JS `Array.prototype.find`, mutated in place in the source). -/
def updateFirst (p : α → Bool) (f : α → α) : List α → List α
  | [] => []
  | x :: xs => if p x then f x :: xs else x :: updateFirst p f xs

/-- Remove the first element satisfying `p` (JS `findIndex` followed by
`splice(index, 1)`, in the branches that only run when a match exists). -/
def eraseFirst (p : α → Bool) : List α → List α
  | [] => []
  | x :: xs => if p x then xs else x :: eraseFirst p xs

/-- A user record (`users` collection). -/
structure User where
  id : String
  username : String
  email : String
  password : String
  role : String
  wallet : JsNum
  verificationLevel : String
  createdAt : ℕ
deriving DecidableEq

/-- A gig record (`gigs` collection); `price` is `parseFloat(price)`. -/
structure Gig where
  id : String
  sellerId : String
  title : String
  description : String
  price : JsNum
  category : String
  createdAt : ℕ
deriving DecidableEq

/-- A message appended to an order's `messages` array. -/
structure Message where
  senderId : String
  text : String
  timestamp : ℕ
deriving DecidableEq

/-- An order record (`orders` collection).  Orders are created without
a `messages` field and the source lazily initialises it
(`order.messages = order.messages || []`); here it is simply a list
starting empty, which is observably the same. -/
structure Order where
  id : String
  buyerId : String
  sellerId : String
  gigId : String
  amount : JsNum
  status : String
  createdAt : ℕ
  escrow : JsNum
  completedAt : Option ℕ
  messages : List Message
deriving DecidableEq

/-- A dispute record (`disputes` collection). -/
structure Dispute where
  id : String
  orderId : String
  initiatorId : String
  reason : String
  status : String
  resolution : Option String
  createdAt : ℕ
  resolvedAt : Option ℕ
deriving DecidableEq

/-- The whole mutable server state. -/
structure ServerState where
  users : List User
  gigs : List Gig
  orders : List Order
  disputes : List Dispute
deriving DecidableEq

/-- An API response, reduced to the observables the claims mention:
HTTP status code and the error message (`none` on success). -/
structure Resp where
  code : ℕ
  err : Option String
deriving DecidableEq

/-- The default admin auto-provisioned at startup when no user with
role `admin` is present; its id is `(users.length + 1).toString()`. -/
def defaultAdmin (now : ℕ) (n : ℕ) : User :=
  { id := jsToString (n + 1), username := "admin", email := "admin@bazimn.local",
    password := "admin", role := "admin", wallet := some 0,
    verificationLevel := "trusted", createdAt := now }

/-- Server startup from the loaded JSON collections: provision an admin
if none exists. -/
def initState (now : ℕ) (users0 : List User) (gigs0 : List Gig)
    (orders0 : List Order) (disputes0 : List Dispute) : ServerState :=
  { users := if users0.any (fun u => u.role == "admin") then users0
             else users0 ++ [defaultAdmin now users0.length],
    gigs := gigs0, orders := orders0, disputes := disputes0 }

/-- Fresh-install startup: all data files absent, every collection
defaults to `[]` and the admin is provisioned. -/
def initialState : ServerState := initState 0 [] [] [] []

/-- Success response helper. -/
def ok (c : ℕ) : Resp := ⟨c, none⟩

/-- Error response helper (status code plus error message). -/
def err (c : ℕ) (m : String) : Resp := ⟨c, some m⟩

/-- Handler for `POST /api/register`: truthiness-check the four fields, reject a
duplicate email, append a user with id `(users.length+1).toString()`,
wallet 0 and verification level `basic`. -/
def register (st : ServerState) (now : ℕ)
    (username email password role : String) : Resp × ServerState :=
  if username = "" ∨ email = "" ∨ password = "" ∨ role = "" then
    (err 400 "Missing fields", st)
  else if (st.users.find? (fun u => u.email == email)).isSome then
    (err 400 "Email already exists", st)
  else
    let id := jsToString (st.users.length + 1)
    let newUser : User :=
      { id := id, username := username, email := email, password := password,
        role := role, wallet := some 0, verificationLevel := "basic", createdAt := now }
    (ok 201, { st with users := st.users ++ [newUser] })

/-- Handler for `POST /api/gigs`: requires a token resolving to a user with role
`seller`; truthiness-checks title/description/price; stores the gig
with `price = parseFloat(price)` and category defaulting to
`General`. -/
def createGig (st : ServerState) (now : ℕ) (userId : Option String)
    (title description : String) (price : JsVal) (category : String) :
    Resp × ServerState :=
  match userId with
  | none => (err 401 "Unauthorized", st)
  | some uid =>
    match st.users.find? (fun u => u.id == uid) with
    | none => (err 403 "Only sellers can create gigs", st)
    | some seller =>
      if seller.role ≠ "seller" then (err 403 "Only sellers can create gigs", st)
      else if title = "" ∨ description = "" ∨ ¬ price.truthy then
        (err 400 "Missing fields", st)
      else
        let newGig : Gig :=
          { id := jsToString (st.gigs.length + 1), sellerId := seller.id,
            title := title, description := description,
            price := price.toNumber,
            category := if category = "" then "General" else category,
            createdAt := now }
        (ok 201, { st with gigs := st.gigs ++ [newGig] })

/-- Handler for `POST /api/orders`: requires a user with role `buyer` and an
existing gig; creates an order with `amount = escrow = gig.price`,
status `in_progress` and no completion timestamp. -/
def placeOrder (st : ServerState) (now : ℕ) (userId : Option String)
    (gigId : String) : Resp × ServerState :=
  match userId with
  | none => (err 401 "Unauthorized", st)
  | some uid =>
    match st.users.find? (fun u => u.id == uid) with
    | none => (err 403 "Only buyers can place orders", st)
    | some buyer =>
      if buyer.role ≠ "buyer" then (err 403 "Only buyers can place orders", st)
      else
        match st.gigs.find? (fun g => g.id == gigId) with
        | none => (err 404 "Gig not found", st)
        | some gig =>
          let newOrder : Order :=
            { id := jsToString (st.orders.length + 1), buyerId := buyer.id,
              sellerId := gig.sellerId, gigId := gig.id, amount := gig.price,
              status := "in_progress", createdAt := now, escrow := gig.price,
              completedAt := none, messages := [] }
          (ok 201, { st with orders := st.orders ++ [newOrder] })

/-- Handler for `POST /api/complete-order`: buyer or seller of the order marks it
complete; rejects an already-completed order; then, in one step, sets
`status = completed`, `completedAt = now`, credits the first user whose
id is the order's `sellerId` (if any) with the order's escrow, and
zeroes the escrow. -/
def completeOrder (st : ServerState) (now : ℕ) (userId : Option String)
    (orderId : String) : Resp × ServerState :=
  match userId with
  | none => (err 401 "Unauthorized", st)
  | some uid =>
    match st.orders.find? (fun o => o.id == orderId) with
    | none => (err 404 "Order not found", st)
    | some order =>
      if order.buyerId ≠ uid ∧ order.sellerId ≠ uid then
        (err 403 "Not authorized for this order", st)
      else if order.status = "completed" then
        (err 400 "Order already completed", st)
      else
        (ok 200,
         { st with
           orders := updateFirst (fun o => o.id == orderId)
             (fun o => { o with
               status := "completed"
               completedAt := some now
               escrow := some 0 }) st.orders,
           users := updateFirst (fun u => u.id == order.sellerId)
             (fun u => { u with wallet := JsNum.add u.wallet order.escrow })
             st.users })

/-- Resolution of the requesting user for the messages endpoints: the
source compares `userId` (possibly `null`) with the order's
participants and otherwise looks the user up to test for role
`admin`. -/
def isAdminUser (st : ServerState) (userId : Option String) : Bool :=
  match userId with
  | none => false
  | some uid =>
    match st.users.find? (fun u => u.id == uid) with
    | none => false
    | some u => u.role == "admin"

/-- Handler for `GET /api/messages?orderId=`: no explicit 401; a missing or empty
`orderId` query parameter is a 400; non-participants that are not
admins get 403; otherwise the (possibly empty) message list is
returned.  The lazy `messages || []` initialisation does not change
the modelled state. -/
def getMessages (st : ServerState) (userId : Option String)
    (orderId : Option String) : Resp × ServerState :=
  match orderId with
  | none => (err 400 "orderId required", st)
  | some oid =>
    if oid = "" then (err 400 "orderId required", st)
    else
      match st.orders.find? (fun o => o.id == oid) with
      | none => (err 404 "Order not found", st)
      | some order =>
        if userId ≠ some order.buyerId ∧ userId ≠ some order.sellerId ∧
            ¬ isAdminUser st userId then
          (err 403 "Not authorised to view messages", st)
        else (ok 200, st)

/-- Handler for `POST /api/messages`: authenticated participants or admins append a
message `{senderId, text, timestamp}` to the order. -/
def postMessage (st : ServerState) (now : ℕ) (userId : Option String)
    (orderId text : String) : Resp × ServerState :=
  match userId with
  | none => (err 401 "Unauthorized", st)
  | some uid =>
    if orderId = "" ∨ text = "" then (err 400 "Missing fields", st)
    else
      match st.orders.find? (fun o => o.id == orderId) with
      | none => (err 404 "Order not found", st)
      | some order =>
        if order.buyerId ≠ uid ∧ order.sellerId ≠ uid ∧
            ¬ isAdminUser st (some uid) then
          (err 403 "Not authorised to send message", st)
        else
          (ok 201,
           { st with
             orders := updateFirst (fun o => o.id == orderId)
               (fun o => { o with messages := o.messages ++ [⟨uid, text, now⟩] })
               st.orders })

/-- Handler for `POST /api/disputes`: an authenticated participant (buyer or seller
only — not admin) files a dispute in state `open` on an existing
order. -/
def fileDispute (st : ServerState) (now : ℕ) (userId : Option String)
    (orderId reason : String) : Resp × ServerState :=
  match userId with
  | none => (err 401 "Unauthorized", st)
  | some uid =>
    if orderId = "" ∨ reason = "" then (err 400 "Missing fields", st)
    else
      match st.orders.find? (fun o => o.id == orderId) with
      | none => (err 404 "Order not found", st)
      | some order =>
        if order.buyerId ≠ uid ∧ order.sellerId ≠ uid then
          (err 403 "Not authorised to dispute", st)
        else
          let newDispute : Dispute :=
            { id := jsToString (st.disputes.length + 1), orderId := orderId,
              initiatorId := uid, reason := reason, status := "open",
              resolution := none, createdAt := now, resolvedAt := none }
          (ok 201, { st with disputes := st.disputes ++ [newDispute] })

/-- Handler for `POST /api/adm/delete-gig` (behind the `/api/adm` admin gate):
remove the first gig with the given id, 404 when absent. -/
def deleteGig (st : ServerState) (userId : Option String) (gigId : String) :
    Resp × ServerState :=
  if ¬ isAdminUser st userId then (err 403 "Admin only", st)
  else if (st.gigs.find? (fun g => g.id == gigId)).isSome then
    (ok 200, { st with gigs := eraseFirst (fun g => g.id == gigId) st.gigs })
  else (err 404 "Gig not found", st)

/-- Handler for `POST /api/adm/delete-user`: remove the first user with the given
id and cascade: drop every gig whose seller is that id and every order
where that id is buyer or seller; 404 when the user is absent. -/
def deleteUser (st : ServerState) (userId : Option String) (uid : String) :
    Resp × ServerState :=
  if ¬ isAdminUser st userId then (err 403 "Admin only", st)
  else if (st.users.find? (fun u => u.id == uid)).isSome then
    (ok 200,
     { st with
       users := eraseFirst (fun u => u.id == uid) st.users,
       gigs := st.gigs.filter (fun g => !(g.sellerId == uid)),
       orders := st.orders.filter
         (fun o => !(o.buyerId == uid) && !(o.sellerId == uid)) })
  else (err 404 "User not found", st)

/-- Handler for `POST /api/adm/resolve-dispute`: reject a missing dispute (404) or a
non-`open` dispute (400); then mark the dispute resolved (resolution
text and timestamp) and, only if the referenced order still exists,
credit the seller with its escrow when `releaseToSeller` is truthy,
zero the escrow and force the order to `completed`.  A missing order is
silently skipped: the call still succeeds. -/
def resolveDispute (st : ServerState) (now : ℕ) (userId : Option String)
    (disputeId : String) (resolution : Option String) (releaseToSeller : Bool) :
    Resp × ServerState :=
  if ¬ isAdminUser st userId then (err 403 "Admin only", st)
  else
    match st.disputes.find? (fun d => d.id == disputeId) with
    | none => (err 404 "Dispute not found", st)
    | some dispute =>
      if dispute.status ≠ "open" then (err 400 "Dispute already resolved", st)
      else
        let disputes' := updateFirst (fun d => d.id == disputeId)
          (fun d => { d with
            status := "resolved"
            resolution := resolution
            resolvedAt := some now }) st.disputes
        match st.orders.find? (fun o => o.id == dispute.orderId) with
        | none => (ok 200, { st with disputes := disputes' })
        | some order =>
          (ok 200,
           { st with
             disputes := disputes',
             orders := updateFirst (fun o => o.id == dispute.orderId)
               (fun o => { o with escrow := some 0, status := "completed" })
               st.orders,
             users := if releaseToSeller then
                 updateFirst (fun u => u.id == order.sellerId)
                   (fun u => { u with wallet := JsNum.add u.wallet order.escrow })
                   st.users
               else st.users })

/-- A mutating API call together with its inputs (`now` is the value of
`Date.now()` during the call).  Read-only calls (gig/order listings,
the admin GET endpoints, `GET /api/messages`) and `login` (which only
touches the token store) do not change the modelled state and are
omitted. -/
inductive Action
  | register (now : ℕ) (username email password role : String)
  | createGig (now : ℕ) (userId : Option String)
      (title description : String) (price : JsVal) (category : String)
  | placeOrder (now : ℕ) (userId : Option String) (gigId : String)
  | completeOrder (now : ℕ) (userId : Option String) (orderId : String)
  | postMessage (now : ℕ) (userId : Option String) (orderId text : String)
  | fileDispute (now : ℕ) (userId : Option String) (orderId reason : String)
  | deleteGig (userId : Option String) (gigId : String)
  | deleteUser (userId : Option String) (uid : String)
  | resolveDispute (now : ℕ) (userId : Option String) (disputeId : String)
      (resolution : Option String) (releaseToSeller : Bool)
deriving DecidableEq

/-- The state after one API call (the response is discarded). -/
def applyAction (st : ServerState) : Action → ServerState
  | .register now u e p r => (register st now u e p r).2
  | .createGig now uid t d pr c => (createGig st now uid t d pr c).2
  | .placeOrder now uid g => (placeOrder st now uid g).2
  | .completeOrder now uid o => (completeOrder st now uid o).2
  | .postMessage now uid o t => (postMessage st now uid o t).2
  | .fileDispute now uid o r => (fileDispute st now uid o r).2
  | .deleteGig uid g => (deleteGig st uid g).2
  | .deleteUser uid u => (deleteUser st uid u).2
  | .resolveDispute now uid d r b => (resolveDispute st now uid d r b).2

/-- Run a sequence of API calls from a fresh install started at time
`now0`. -/
def run (now0 : ℕ) (acts : List Action) : ServerState :=
  acts.foldl applyAction (initState now0 [] [] [] [])

/-- A state is reachable when some fresh-install history produces it. -/
def Reachable (st : ServerState) : Prop :=
  ∃ now0 acts, st = run now0 acts

/-- Numeric value of a decimal digit string (inverse of `natDigitsAux`). -/
def digitsVal (cs : List Char) : ℕ := cs.foldl (fun a c => 10 * a + (c.toNat - 48)) 0

/-- Invariant maintained by every operation from a fresh install: a
completed order has escrow 0, an in-progress order still escrows its
full amount, and every order and gig references an existing seller
(user deletion cascades onto gigs and orders). -/
def StateInv (st : ServerState) : Prop :=
  (∀ o ∈ st.orders,
    (o.status = "completed" → o.escrow = some 0) ∧
    (o.status = "in_progress" → o.escrow = o.amount) ∧
    o.sellerId ∈ st.users.map User.id) ∧
  ∀ g ∈ st.gigs, g.sellerId ∈ st.users.map User.id

/-- Dispute identifiers in any reachable state: every dispute id is the
decimal string of some `1 ≤ k ≤ length`, and the ids are distinct. -/
def DisputeIdsInv (st : ServerState) : Prop :=
  (∀ d ∈ st.disputes, ∃ k, 1 ≤ k ∧ k ≤ st.disputes.length ∧ d.id = jsToString k) ∧
  (st.disputes.map Dispute.id).Nodup

/-- Is this call an escrow release in the sense of the spec: a
completed order, or a dispute resolved with `releaseToSeller`? -/
def isEscrowRelease : Action → Bool
  | .completeOrder _ _ _ => true
  | .resolveDispute _ _ _ _ rel => rel
  | _ => false

/-! ### Concrete histories used by witnesses and counterexamples -/

/-- Register a seller ("2") and a buyer ("3"), create a gig (price 50)
and place an order on it. -/
def actsOrder : List Action :=
  [ .register 1 "s" "s@x" "pw" "seller"
  , .register 2 "b" "b@x" "pw" "buyer"
  , .createGig 3 (some "2") "t" "d" (.num 50) ""
  , .placeOrder 4 (some "3") "1" ]

def stOrder : ServerState := run 0 actsOrder

/-- The order placed by `actsOrder`. -/
def oW : Order :=
  { id := "1", buyerId := "3", sellerId := "2", gigId := "1", amount := some 50,
    status := "in_progress", createdAt := 4, escrow := some 50,
    completedAt := none, messages := [] }

/-- The seller registered by `actsOrder`. -/
def uSeller : User :=
  { id := "2", username := "s", email := "s@x", password := "pw",
    role := "seller", wallet := some 0, verificationLevel := "basic",
    createdAt := 1 }

/-- History `actsOrder`, then the buyer files a dispute. -/
def actsDispute : List Action := actsOrder ++ [.fileDispute 5 (some "3") "1" "bad"]

def stDispute : ServerState := run 0 actsDispute

/-- The dispute filed by `actsDispute`. -/
def dW : Dispute :=
  { id := "1", orderId := "1", initiatorId := "3", reason := "bad",
    status := "open", resolution := none, createdAt := 5, resolvedAt := none }

/-- History `actsDispute`, then the admin resolves the dispute without release. -/
def actsResolved : List Action :=
  actsDispute ++ [.resolveDispute 6 (some "1") "1" (some "done") false]

def stResolved : ServerState := run 0 actsResolved

/-- The order after the no-release resolution of `actsResolved`. -/
def oR : Order :=
  { id := "1", buyerId := "3", sellerId := "2", gigId := "1", amount := some 50,
    status := "completed", createdAt := 4, escrow := some 0,
    completedAt := none, messages := [] }

/-- The dispute after the resolution of `actsResolved`. -/
def dR : Dispute :=
  { id := "1", orderId := "1", initiatorId := "3", reason := "bad",
    status := "resolved", resolution := some "done", createdAt := 5,
    resolvedAt := some 6 }

/-- History `actsDispute`, then the admin deletes the buyer: the order is
cascade-deleted but the dispute stays, now referencing a missing
order. -/
def actsOrphan : List Action := actsDispute ++ [.deleteUser (some "1") "3"]

def stOrphan : ServerState := run 0 actsOrphan

/-- History `actsOrder`, then a second buyer ("4") registers: authenticated but
neither participant nor admin. -/
def actsThree : List Action := actsOrder ++ [.register 5 "c" "c@x" "pw" "buyer"]

def stThree : ServerState := run 0 actsThree

/-- History `actsDispute`, then the seller files a second dispute on the same
order (the source does not block duplicates). -/
def actsDispute2 : List Action :=
  actsDispute ++ [.fileDispute 6 (some "2") "1" "also bad"]

def stDispute2 : ServerState := run 0 actsDispute2

/-- A gig whose price is the string "0": truthy for the validation, but
`parseFloat` yields 0, so the order placed on it escrows 0 while
`in_progress`. -/
def actsZero : List Action :=
  [ .register 1 "s" "s@x" "pw" "seller"
  , .register 2 "b" "b@x" "pw" "buyer"
  , .createGig 3 (some "2") "free" "d" (.str "0") ""
  , .createGig 3 (some "2") "t" "d" (.num 50) ""
  , .placeOrder 4 (some "3") "1"
  , .placeOrder 5 (some "3") "2" ]

def stZero : ServerState := run 0 actsZero

/-- The order completed by the C1 witness. -/
def oC1 : Order :=
  { id := "1", buyerId := "3", sellerId := "2", gigId := "1", amount := some 50,
    status := "completed", createdAt := 4, escrow := some 0,
    completedAt := some 9, messages := [] }

/-- A gig with a negative price (the validation only checks
truthiness), ordered and completed: the seller is "credited" -50. -/
def actsNegPre : List Action :=
  [ .register 1 "s" "s@x" "pw" "seller"
  , .register 2 "b" "b@x" "pw" "buyer"
  , .createGig 3 (some "2") "t" "d" (.num (-50)) ""
  , .placeOrder 4 (some "3") "1" ]

def actsNeg : List Action := actsNegPre ++ [.completeOrder 5 (some "3") "1"]

/-- Register two users, delete the first, register a third: the id
"(length+1)" is recomputed on the shorter array and collides. -/
def actsDup : List Action :=
  [ .register 1 "a" "a@x" "pw" "buyer"
  , .register 2 "b" "b@x" "pw" "buyer"
  , .deleteUser (some "1") "2"
  , .register 3 "c" "c@x" "pw" "buyer" ]


/-! ### Theorems -/

/-- The function `qadd` is addition on `ℚ`. -/
theorem qadd_eq_add (a b : ℚ) : qadd a b = a + b := (Rat.add_def' a b).symm


/-! ### Helper lemmas about the list primitives -/

theorem mem_updateFirst {α} {p : α → Bool} {f : α → α} {l : List α} {x : α}
    (h : x ∈ updateFirst p f l) : x ∈ l ∨ ∃ y ∈ l, x = f y := by
  induction l with
  | nil => simp [updateFirst] at h
  | cons a l ih =>
    simp only [updateFirst] at h
    split at h
    · rcases List.mem_cons.1 h with h | h
      · exact Or.inr ⟨a, List.mem_cons_self a l, h⟩
      · exact Or.inl (List.mem_cons_of_mem a h)
    · rcases List.mem_cons.1 h with h | h
      · exact Or.inl (h ▸ List.mem_cons_self a l)
      · rcases ih h with h | ⟨y, hy, hxy⟩
        · exact Or.inl (List.mem_cons_of_mem a h)
        · exact Or.inr ⟨y, List.mem_cons_of_mem a hy, hxy⟩

theorem map_updateFirst {α β} (g : α → β) (p : α → Bool) (f : α → α)
    (hf : ∀ x, g (f x) = g x) (l : List α) :
    (updateFirst p f l).map g = l.map g := by
  induction l with
  | nil => rfl
  | cons a l ih => simp only [updateFirst]; split <;> simp [hf, ih]

theorem length_updateFirst {α} (p : α → Bool) (f : α → α) (l : List α) :
    (updateFirst p f l).length = l.length := by
  induction l with
  | nil => rfl
  | cons a l ih => simp only [updateFirst]; split <;> simp [ih]

theorem find?_updateFirst {α} {p : α → Bool} {f : α → α} {l : List α} {x : α}
    (hx : l.find? p = some x) (hpf : p (f x) = true) :
    (updateFirst p f l).find? p = some (f x) := by
  induction l with
  | nil => simp [List.find?_nil] at hx
  | cons a l ih =>
    by_cases hp : p a
    · rw [List.find?_cons_of_pos _ hp] at hx
      simp only [Option.some.injEq] at hx
      subst hx
      simp only [updateFirst, if_pos hp]
      exact List.find?_cons_of_pos _ hpf
    · rw [List.find?_cons_of_neg _ hp] at hx
      simp only [updateFirst, if_neg hp]
      rw [List.find?_cons_of_neg _ hp]
      exact ih hx

theorem mem_of_mem_eraseFirst {α} {p : α → Bool} {l : List α} {x : α}
    (h : x ∈ eraseFirst p l) : x ∈ l := by
  induction l with
  | nil => simp [eraseFirst] at h
  | cons a l ih =>
    simp only [eraseFirst] at h
    split at h
    · exact List.mem_cons_of_mem a h
    · rcases List.mem_cons.1 h with h | h
      · exact h ▸ List.mem_cons_self a l
      · exact List.mem_cons_of_mem a (ih h)

theorem mem_map_eraseFirst {α β} {g : α → β} {p : α → Bool} {l : List α} {v : β}
    (hv : v ∈ l.map g) (hp : ∀ x ∈ l, p x = true → g x ≠ v) :
    v ∈ (eraseFirst p l).map g := by
  induction l with
  | nil => simp at hv
  | cons a l ih =>
    simp only [eraseFirst]
    rcases List.mem_map.1 hv with ⟨x, hx, hgx⟩
    rcases List.mem_cons.1 hx with rfl | hx
    · have hpa : p x = false := by
        by_contra hcon
        exact hp x (List.mem_cons_self x l) (by simpa using hcon) hgx
      simp only [hpa]
      simp [hgx]
    · split
      · exact List.mem_map.2 ⟨x, hx, hgx⟩
      · have : v ∈ (eraseFirst p l).map g :=
          ih (List.mem_map.2 ⟨x, hx, hgx⟩)
            (fun y hy hpy => hp y (List.mem_cons_of_mem a hy) hpy)
        simpa using Or.inr this

/-! ### Decimal identifiers: `(n).toString()` is injective -/

theorem digitsVal_append_digit (l : List Char) (c : Char) :
    digitsVal (l ++ [c]) = 10 * digitsVal l + (c.toNat - 48) := by
  simp [digitsVal, List.foldl_append]

theorem digitChar10_toNat {d : ℕ} (h : d < 10) : (digitChar10 d).toNat - 48 = d := by
  interval_cases d <;> decide

theorem digitsVal_natDigitsAux : ∀ f n, n ≤ f → digitsVal (natDigitsAux (f + 1) n) = n := by
  intro f
  induction f with
  | zero =>
    intro n hn
    interval_cases n
    decide
  | succ f ih =>
    intro n hn
    rw [natDigitsAux]
    split
    · next h10 => simp [digitsVal, digitChar10_toNat h10]
    · next h10 =>
      have h10' : 10 ≤ n := Nat.le_of_not_lt h10
      have hdiv : n / 10 < n := Nat.div_lt_self (by omega) (by omega)
      rw [digitsVal_append_digit, ih (n / 10) (by omega),
        digitChar10_toNat (Nat.mod_lt n (by omega))]
      omega

theorem jsToString_injective : Function.Injective jsToString := by
  intro m n h
  have hd : natDigitsAux (m + 1) m = natDigitsAux (n + 1) n := congrArg String.data h
  have hm := digitsVal_natDigitsAux m m le_rfl
  have hn := digitsVal_natDigitsAux n n le_rfl
  rw [← hm, ← hn, hd]

/-! ### Reachable-state invariants -/

theorem mem_map_id_append {us vs : List User} {i : String}
    (h : i ∈ us.map User.id) : i ∈ (us ++ vs).map User.id := by
  simp only [List.map_append, List.mem_append]
  exact Or.inl h

theorem stateInv_applyAction (st : ServerState) (a : Action)
    (h : StateInv st) : StateInv (applyAction st a) := by
  obtain ⟨ho, hg⟩ := h
  cases a with
  | register now u e p r =>
    simp only [applyAction, register]
    split
    · exact ⟨ho, hg⟩
    · split
      · exact ⟨ho, hg⟩
      · refine ⟨fun o hoo => ?_, fun g hgg => ?_⟩
        · exact ⟨(ho o hoo).1, (ho o hoo).2.1, mem_map_id_append (ho o hoo).2.2⟩
        · exact mem_map_id_append (hg g hgg)
  | createGig now uid t d pr c =>
    simp only [applyAction, createGig]
    split
    · exact ⟨ho, hg⟩
    · split
      · exact ⟨ho, hg⟩
      · next seller hfind =>
        split
        · exact ⟨ho, hg⟩
        · split
          · exact ⟨ho, hg⟩
          · refine ⟨ho, fun g hgg => ?_⟩
            rcases List.mem_append.1 hgg with hgg | hgg
            · exact hg g hgg
            · have hs : seller ∈ st.users := List.mem_of_find?_eq_some hfind
              rcases List.mem_cons.1 hgg with rfl | hfalse
              · exact List.mem_map.2 ⟨seller, hs, rfl⟩
              · simp at hfalse
  | placeOrder now uid g =>
    simp only [applyAction, placeOrder]
    split
    · exact ⟨ho, hg⟩
    · split
      · exact ⟨ho, hg⟩
      · split
        · exact ⟨ho, hg⟩
        · split
          · exact ⟨ho, hg⟩
          · next gig hfind =>
            refine ⟨fun o hoo => ?_, hg⟩
            rcases List.mem_append.1 hoo with hoo | hoo
            · exact ho o hoo
            · rcases List.mem_cons.1 hoo with rfl | hfalse
              · refine ⟨by intro hc; simp at hc, fun _ => rfl, ?_⟩
                exact hg gig (List.mem_of_find?_eq_some hfind)
              · simp at hfalse
  | completeOrder now uid oid =>
    simp only [applyAction, completeOrder]
    split
    · exact ⟨ho, hg⟩
    · split
      · exact ⟨ho, hg⟩
      · next order hfind =>
        split
        · exact ⟨ho, hg⟩
        · split
          · exact ⟨ho, hg⟩
          · have hmap : (updateFirst (fun u => u.id == order.sellerId)
                (fun u => { u with wallet := JsNum.add u.wallet order.escrow })
                st.users).map User.id = st.users.map User.id :=
              map_updateFirst User.id (fun u => u.id == order.sellerId)
                (fun u => { u with wallet := JsNum.add u.wallet order.escrow })
                (fun x => rfl) st.users
            refine ⟨fun o hoo => ?_, fun g hgg => ?_⟩
            · rcases mem_updateFirst hoo with hoo | ⟨y, hy, rfl⟩
              · exact ⟨(ho o hoo).1, (ho o hoo).2.1, by rw [hmap]; exact (ho o hoo).2.2⟩
              · refine ⟨fun _ => rfl, by intro hc; simp at hc, ?_⟩
                rw [hmap]
                exact (ho y hy).2.2
            · rw [hmap]
              exact hg g hgg
  | postMessage now uid oid t =>
    simp only [applyAction, postMessage]
    split
    · exact ⟨ho, hg⟩
    · split
      · exact ⟨ho, hg⟩
      · split
        · exact ⟨ho, hg⟩
        · split
          · exact ⟨ho, hg⟩
          · refine ⟨fun o hoo => ?_, hg⟩
            rcases mem_updateFirst hoo with hoo | ⟨y, hy, rfl⟩
            · exact ho o hoo
            · exact ⟨(ho y hy).1, (ho y hy).2.1, (ho y hy).2.2⟩
  | fileDispute now uid oid r =>
    simp only [applyAction, fileDispute]
    split
    · exact ⟨ho, hg⟩
    · split
      · exact ⟨ho, hg⟩
      · split
        · exact ⟨ho, hg⟩
        · split
          · exact ⟨ho, hg⟩
          · exact ⟨ho, hg⟩
  | deleteGig uid g =>
    simp only [applyAction, deleteGig]
    split
    · exact ⟨ho, hg⟩
    · split
      · exact ⟨ho, fun g' hgg => hg g' (mem_of_mem_eraseFirst hgg)⟩
      · exact ⟨ho, hg⟩
  | deleteUser auid uid =>
    simp only [applyAction, deleteUser]
    split
    · exact ⟨ho, hg⟩
    · split
      · refine ⟨fun o hoo => ?_, fun g hgg => ?_⟩
        · have hmem := List.mem_filter.1 hoo
          have hne : o.sellerId ≠ uid := by
            have := hmem.2
            simp only [Bool.and_eq_true, Bool.not_eq_true', beq_eq_false_iff_ne] at this
            exact this.2
          refine ⟨(ho o hmem.1).1, (ho o hmem.1).2.1, ?_⟩
          exact mem_map_eraseFirst (ho o hmem.1).2.2
            (fun x _ hx => by
              have : x.id = uid := by simpa using hx
              rw [this]; exact fun hc => hne hc.symm)
        · have hmem := List.mem_filter.1 hgg
          have hne : g.sellerId ≠ uid := by
            have := hmem.2
            simp only [Bool.not_eq_true', beq_eq_false_iff_ne] at this
            exact this
          exact mem_map_eraseFirst (hg g hmem.1)
            (fun x _ hx => by
              have : x.id = uid := by simpa using hx
              rw [this]; exact fun hc => hne hc.symm)
      · exact ⟨ho, hg⟩
  | resolveDispute now uid dId resol rel =>
    simp only [applyAction, resolveDispute]
    split
    · exact ⟨ho, hg⟩
    · split
      · exact ⟨ho, hg⟩
      · next dispute hfind =>
        split
        · exact ⟨ho, hg⟩
        · split
          · exact ⟨ho, hg⟩
          · next order hofind =>
            have hmap : ∀ us' : List User,
                (if rel then updateFirst (fun u => u.id == order.sellerId)
                    (fun u => { u with wallet := JsNum.add u.wallet order.escrow })
                    st.users
                  else st.users).map User.id = st.users.map User.id := by
              intro us'
              split
              · exact map_updateFirst User.id (fun u => u.id == order.sellerId)
                  (fun u => { u with wallet := JsNum.add u.wallet order.escrow })
                  (fun x => rfl) st.users
              · rfl
            refine ⟨fun o hoo => ?_, fun g hgg => ?_⟩
            · rcases mem_updateFirst hoo with hoo | ⟨y, hy, rfl⟩
              · exact ⟨(ho o hoo).1, (ho o hoo).2.1, by rw [hmap st.users]; exact (ho o hoo).2.2⟩
              · refine ⟨fun _ => rfl, by intro hc; simp at hc, ?_⟩
                rw [hmap st.users]
                exact (ho y hy).2.2
            · rw [hmap st.users]
              exact hg g hgg

theorem stateInv_foldl :
    ∀ (acts : List Action) (st : ServerState), StateInv st →
      StateInv (acts.foldl applyAction st) := by
  intro acts
  induction acts with
  | nil => intro st h; exact h
  | cons a acts ih =>
    intro st h
    exact ih (applyAction st a) (stateInv_applyAction st a h)

theorem stateInv_reachable {st : ServerState} (h : Reachable st) : StateInv st := by
  obtain ⟨now0, acts, rfl⟩ := h
  refine stateInv_foldl acts _ ?_
  constructor
  · intro o hoo
    simp [initState] at hoo
  · intro g hgg
    simp [initState] at hgg

theorem reachable_applyAction {st : ServerState} (h : Reachable st) (a : Action) :
    Reachable (applyAction st a) := by
  obtain ⟨now0, acts, rfl⟩ := h
  exact ⟨now0, acts ++ [a], by simp [run, List.foldl_append]⟩

/-- How one API call can change the `disputes` collection: not at all,
by appending a dispute with the next decimal id (`fileDispute`), or by
rewriting the first dispute matching a predicate without changing its
id (`resolveDispute`). -/
theorem disputes_applyAction (st : ServerState) (a : Action) :
    (applyAction st a).disputes = st.disputes ∨
    (∃ d : Dispute, (applyAction st a).disputes = st.disputes ++ [d] ∧
      d.id = jsToString (st.disputes.length + 1)) ∨
    (∃ (p : Dispute → Bool) (f : Dispute → Dispute), (∀ x, (f x).id = x.id) ∧
      (applyAction st a).disputes = updateFirst p f st.disputes) := by
  cases a with
  | register now u e p r =>
    simp only [applyAction, register]
    split
    · exact Or.inl rfl
    · split <;> exact Or.inl rfl
  | createGig now uid t d pr c =>
    simp only [applyAction, createGig]
    split
    · exact Or.inl rfl
    · split
      · exact Or.inl rfl
      · split
        · exact Or.inl rfl
        · split <;> exact Or.inl rfl
  | placeOrder now uid g =>
    simp only [applyAction, placeOrder]
    split
    · exact Or.inl rfl
    · split
      · exact Or.inl rfl
      · split
        · exact Or.inl rfl
        · split <;> exact Or.inl rfl
  | completeOrder now uid oid =>
    simp only [applyAction, completeOrder]
    split
    · exact Or.inl rfl
    · split
      · exact Or.inl rfl
      · split
        · exact Or.inl rfl
        · split <;> exact Or.inl rfl
  | postMessage now uid oid t =>
    simp only [applyAction, postMessage]
    split
    · exact Or.inl rfl
    · split
      · exact Or.inl rfl
      · split
        · exact Or.inl rfl
        · split <;> exact Or.inl rfl
  | fileDispute now uid oid r =>
    simp only [applyAction, fileDispute]
    split
    · exact Or.inl rfl
    · split
      · exact Or.inl rfl
      · split
        · exact Or.inl rfl
        · split
          · exact Or.inl rfl
          · exact Or.inr (Or.inl ⟨_, rfl, rfl⟩)
  | deleteGig uid g =>
    simp only [applyAction, deleteGig]
    split
    · exact Or.inl rfl
    · split <;> exact Or.inl rfl
  | deleteUser auid uid =>
    simp only [applyAction, deleteUser]
    split
    · exact Or.inl rfl
    · split <;> exact Or.inl rfl
  | resolveDispute now uid dId resol rel =>
    simp only [applyAction, resolveDispute]
    split
    · exact Or.inl rfl
    · split
      · exact Or.inl rfl
      · split
        · exact Or.inl rfl
        · split
          · exact Or.inr (Or.inr ⟨fun d => d.id == dId,
              fun d => { d with status := "resolved", resolution := resol, resolvedAt := some now },
              fun x => rfl, rfl⟩)
          · exact Or.inr (Or.inr ⟨fun d => d.id == dId,
              fun d => { d with status := "resolved", resolution := resol, resolvedAt := some now },
              fun x => rfl, rfl⟩)

theorem disputeIdsInv_applyAction (st : ServerState) (a : Action)
    (h : DisputeIdsInv st) : DisputeIdsInv (applyAction st a) := by
  obtain ⟨hk, hnd⟩ := h
  rcases disputes_applyAction st a with heq | ⟨d, heq, hid⟩ | ⟨p, f, hf, heq⟩
  · exact ⟨fun d hd => by rw [heq] at hd ⊢; exact hk d hd, by rw [heq]; exact hnd⟩
  · constructor
    · intro d' hd'
      rw [heq] at hd' ⊢
      rcases List.mem_append.1 hd' with hd' | hd'
      · obtain ⟨k, h1, h2, h3⟩ := hk d' hd'
        exact ⟨k, h1, by simp; omega, h3⟩
      · rcases List.mem_cons.1 hd' with rfl | hfalse
        · exact ⟨st.disputes.length + 1, by omega, by simp, hid⟩
        · simp at hfalse
    · rw [heq, List.map_append, List.nodup_append]
      refine ⟨hnd, List.nodup_singleton _, ?_⟩
      intro i hi hi1
      simp only [List.map_cons, List.map_nil, List.mem_singleton] at hi1
      rcases List.mem_map.1 hi with ⟨d', hd', rfl⟩
      obtain ⟨k, h1, h2, h3⟩ := hk d' hd'
      rw [hi1, hid] at h3
      have := jsToString_injective h3
      omega
  · constructor
    · intro d' hd'
      rw [heq] at hd'
      have hlen : (applyAction st a).disputes.length = st.disputes.length := by
        rw [heq]; exact length_updateFirst _ _ _
      rcases mem_updateFirst hd' with hd' | ⟨y, hy, rfl⟩
      · obtain ⟨k, h1, h2, h3⟩ := hk d' hd'
        exact ⟨k, h1, by omega, h3⟩
      · obtain ⟨k, h1, h2, h3⟩ := hk y hy
        exact ⟨k, h1, by omega, by rw [hf y]; exact h3⟩
    · rw [heq, map_updateFirst Dispute.id p f hf]
      exact hnd

theorem inv_foldl {P : ServerState → Prop}
    (hstep : ∀ st a, P st → P (applyAction st a)) :
    ∀ (acts : List Action) (st : ServerState), P st →
      P (acts.foldl applyAction st) := by
  intro acts
  induction acts with
  | nil => exact fun st h => h
  | cons a acts ih => exact fun st h => ih _ (hstep st a h)

theorem disputeIdsInv_reachable {st : ServerState} (h : Reachable st) :
    DisputeIdsInv st := by
  obtain ⟨now0, acts, rfl⟩ := h
  refine inv_foldl disputeIdsInv_applyAction acts _ ⟨fun d hd => ?_, ?_⟩
  · simp [initState] at hd
  · simp [initState]

/-- Shape of a successful `completeOrder` call: the caller was
authenticated, the order was found and not yet completed, and the
result updates exactly the order (status/completedAt/escrow) and the
first user carrying the order's seller id (wallet credit). -/
theorem completeOrder_ok {st : ServerState} {now : ℕ} {uid : Option String}
    {oid : String} (h200 : (completeOrder st now uid oid).1.code = 200) :
    ∃ u o, uid = some u ∧ st.orders.find? (fun o' => o'.id == oid) = some o ∧
      o.status ≠ "completed" ∧
      completeOrder st now uid oid =
        (ok 200,
         { st with
           orders := updateFirst (fun o' => o'.id == oid)
             (fun o' => { o' with
               status := "completed"
               completedAt := some now
               escrow := some 0 }) st.orders,
           users := updateFirst (fun u' => u'.id == o.sellerId)
             (fun u' => { u' with wallet := JsNum.add u'.wallet o.escrow })
             st.users }) := by
  cases uid with
  | none => simp [completeOrder, err] at h200
  | some u =>
    cases hfind : st.orders.find? (fun o' => o'.id == oid) with
    | none => simp only [completeOrder, hfind] at h200; simp [err] at h200
    | some o =>
      by_cases hb : o.buyerId ≠ u ∧ o.sellerId ≠ u
      · simp only [completeOrder, hfind, if_pos hb] at h200
        simp [err] at h200
      · by_cases hc : o.status = "completed"
        · simp only [completeOrder, hfind, if_neg hb, if_pos hc] at h200
          simp [err] at h200
        · exact ⟨u, o, rfl, rfl, hc,
            by simp only [completeOrder, hfind, if_neg hb, if_neg hc]⟩

/-- Claim C2: for an existing `in_progress` order and an acting user who
is its buyer or seller, `completeOrder` answers 200 and, in the same
step, marks the order completed with `completedAt = now` and escrow 0,
and credits the seller's wallet by the order's escrow, which equals the
order's original amount. -/
theorem C2_complete_order_credits_seller (st : ServerState) (hreach : Reachable st)
    (now : ℕ) (uid oid : String) (o : Order)
    (hfind : st.orders.find? (fun o' => o'.id == oid) = some o)
    (hstat : o.status = "in_progress")
    (hpart : uid = o.buyerId ∨ uid = o.sellerId) :
    o.escrow = o.amount ∧
    ∃ s ∈ st.users, st.users.find? (fun u => u.id == o.sellerId) = some s ∧
      completeOrder st now (some uid) oid =
        (ok 200,
         { st with
           orders := updateFirst (fun o' => o'.id == oid)
             (fun o' => { o' with
               status := "completed"
               completedAt := some now
               escrow := some 0 }) st.orders,
           users := updateFirst (fun u => u.id == o.sellerId)
             (fun u => { u with wallet := JsNum.add u.wallet o.amount })
             st.users }) ∧
      (completeOrder st now (some uid) oid).2.users.find? (fun u => u.id == o.sellerId) =
        some { s with wallet := JsNum.add s.wallet o.amount } := by
  have hinv := stateInv_reachable hreach
  have ho := hinv.1 o (List.mem_of_find?_eq_some hfind)
  have hEA : o.escrow = o.amount := ho.2.1 hstat
  have hsome : (st.users.find? (fun u => u.id == o.sellerId)).isSome := by
    rcases List.mem_map.1 ho.2.2 with ⟨s, hs, hsid⟩
    exact List.find?_isSome.2 ⟨s, hs, by simp [hsid]⟩
  obtain ⟨s, hs⟩ := Option.isSome_iff_exists.1 hsome
  have hnp : ¬ (o.buyerId ≠ uid ∧ o.sellerId ≠ uid) := by
    rcases hpart with h | h
    · exact fun hc => hc.1 h.symm
    · exact fun hc => hc.2 h.symm
  have heq : completeOrder st now (some uid) oid =
      (ok 200,
       { st with
         orders := updateFirst (fun o' => o'.id == oid)
           (fun o' => { o' with
             status := "completed"
             completedAt := some now
             escrow := some 0 }) st.orders,
         users := updateFirst (fun u => u.id == o.sellerId)
           (fun u => { u with wallet := JsNum.add u.wallet o.amount })
           st.users }) := by
    simp only [completeOrder, hfind, if_neg hnp,
      if_neg (show ¬ o.status = "completed" by rw [hstat]; decide)]
    rw [← hEA]
  refine ⟨hEA, s, List.mem_of_find?_eq_some hs, hs, heq, ?_⟩
  rw [heq]
  have hps := List.find?_some hs
  exact find?_updateFirst hs hps

/-- Claim C3: resolving an open dispute whose order still exists marks
the dispute resolved (resolution text and timestamp), forces the order
to `completed` with escrow 0 and, exactly when `releaseToSeller` is
true, credits the seller once with the order's current escrow. -/
theorem C3_resolve_dispute_settles (st : ServerState) (hreach : Reachable st)
    (now : ℕ) (auid dId : String) (resol : Option String) (rel : Bool)
    (d : Dispute) (o : Order)
    (hadmin : isAdminUser st (some auid) = true)
    (hd : st.disputes.find? (fun d' => d'.id == dId) = some d)
    (hopen : d.status = "open")
    (ho : st.orders.find? (fun o' => o'.id == d.orderId) = some o) :
    ∃ s ∈ st.users, st.users.find? (fun u => u.id == o.sellerId) = some s ∧
      resolveDispute st now (some auid) dId resol rel =
        (ok 200,
         { st with
           disputes := updateFirst (fun d' => d'.id == dId)
             (fun d' => { d' with
               status := "resolved"
               resolution := resol
               resolvedAt := some now }) st.disputes,
           orders := updateFirst (fun o' => o'.id == d.orderId)
             (fun o' => { o' with escrow := some 0, status := "completed" })
             st.orders,
           users := if rel then
               updateFirst (fun u => u.id == o.sellerId)
                 (fun u => { u with wallet := JsNum.add u.wallet o.escrow })
                 st.users
             else st.users }) := by
  have hinv := stateInv_reachable hreach
  have hoo := hinv.1 o (List.mem_of_find?_eq_some ho)
  have hsome : (st.users.find? (fun u => u.id == o.sellerId)).isSome := by
    rcases List.mem_map.1 hoo.2.2 with ⟨s, hs, hsid⟩
    exact List.find?_isSome.2 ⟨s, hs, by simp [hsid]⟩
  obtain ⟨s, hs⟩ := Option.isSome_iff_exists.1 hsome
  refine ⟨s, List.mem_of_find?_eq_some hs, hs, ?_⟩
  have hA : ¬¬ isAdminUser st (some auid) = true := fun hc => hc hadmin
  have hO : ¬ d.status ≠ "open" := fun hc => hc hopen
  simp only [resolveDispute, if_neg hA, hd, if_neg hO, ho]

/-- Claim C4: repeating a terminal transition fails with 400 and leaves
the state untouched: completing an already-completed order, and
resolving an already-resolved dispute. -/
theorem C4_terminal_repeat_fails (st : ServerState) (now : ℕ)
    (uid auid oid dId : String) (resol : Option String) (rel : Bool)
    (o : Order) (d : Dispute)
    (hfind : st.orders.find? (fun o' => o'.id == oid) = some o)
    (hdone : o.status = "completed")
    (hpart : uid = o.buyerId ∨ uid = o.sellerId)
    (hadmin : isAdminUser st (some auid) = true)
    (hd : st.disputes.find? (fun d' => d'.id == dId) = some d)
    (hres : d.status = "resolved") :
    completeOrder st now (some uid) oid = (err 400 "Order already completed", st) ∧
    resolveDispute st now (some auid) dId resol rel =
      (err 400 "Dispute already resolved", st) := by
  have hnp : ¬ (o.buyerId ≠ uid ∧ o.sellerId ≠ uid) := by
    rcases hpart with h | h
    · exact fun hc => hc.1 h.symm
    · exact fun hc => hc.2 h.symm
  have hA : ¬¬ isAdminUser st (some auid) = true := fun hc => hc hadmin
  constructor
  · simp only [completeOrder, hfind, if_neg hnp, if_pos hdone]
  · simp only [resolveDispute, if_neg hA, hd,
      if_pos (show d.status ≠ "open" by rw [hres]; decide)]

/-- Claim C5 (amended): `resolveDispute` checks that the dispute exists
and is open but never checks that the referenced order exists; when the
order is gone the call still succeeds with 200, the dispute is marked
resolved, and the order/user collections are untouched. -/
theorem C5_resolve_with_missing_order (st : ServerState) (now : ℕ)
    (auid dId : String) (resol : Option String) (rel : Bool) (d : Dispute)
    (hadmin : isAdminUser st (some auid) = true)
    (hd : st.disputes.find? (fun d' => d'.id == dId) = some d)
    (hopen : d.status = "open")
    (hno : st.orders.find? (fun o => o.id == d.orderId) = none) :
    resolveDispute st now (some auid) dId resol rel =
      (ok 200,
       { st with
         disputes := updateFirst (fun d' => d'.id == dId)
           (fun d' => { d' with
             status := "resolved"
             resolution := resol
             resolvedAt := some now }) st.disputes }) := by
  have hA : ¬¬ isAdminUser st (some auid) = true := fun hc => hc hadmin
  have hO : ¬ d.status ≠ "open" := fun hc => hc hopen
  simp only [resolveDispute, if_neg hA, hd, if_neg hO, hno]

/-- Claim C1 (amended): from any reachable state, after a successful
`completeOrder` every completed order has escrow 0 and the targeted
order is completed with escrow 0 and `completedAt = now`, both
established within the single atomic step; after a successful
`resolveDispute` every completed order likewise has escrow 0.  (The
converse direction of the spec, escrow 0 → completed, fails: an order
on a gig whose price parsed to 0 stays `in_progress` with escrow 0; see
the counterexample.) -/
theorem C1_completed_orders_zero_escrow (st : ServerState) (h : Reachable st) :
    (∀ now uid oid, (completeOrder st now uid oid).1.code = 200 →
      (∀ o ∈ (completeOrder st now uid oid).2.orders,
        o.status = "completed" → o.escrow = some 0) ∧
      ∃ o ∈ (completeOrder st now uid oid).2.orders, o.id = oid ∧
        o.status = "completed" ∧ o.escrow = some 0 ∧ o.completedAt = some now) ∧
    (∀ now uid dId resol rel, (resolveDispute st now uid dId resol rel).1.code = 200 →
      ∀ o ∈ (resolveDispute st now uid dId resol rel).2.orders,
        o.status = "completed" → o.escrow = some 0) := by
  constructor
  · intro now uid oid h200
    have hstep := stateInv_applyAction st (.completeOrder now uid oid)
      (stateInv_reachable h)
    constructor
    · intro o ho hc
      exact (hstep.1 o ho).1 hc
    · obtain ⟨u, o, huid, hfind, hnc, heq⟩ := completeOrder_ok h200
      have hid : o.id = oid := by simpa using List.find?_some hfind
      have hps := List.find?_some hfind
      refine ⟨{ o with status := "completed", completedAt := some now, escrow := some 0 },
        ?_, hid, rfl, rfl, rfl⟩
      have hmem := List.mem_of_find?_eq_some
        (@find?_updateFirst Order _
          (fun o' => { o' with status := "completed", completedAt := some now, escrow := some 0 })
          _ _ hfind hps)
      rw [heq]
      exact hmem
  · intro now uid dId resol rel h200
    have hstep := stateInv_applyAction st (.resolveDispute now uid dId resol rel)
      (stateInv_reachable h)
    intro o ho hc
    exact (hstep.1 o ho).1 hc

/-- Claim C6: for an existing order, reading or posting its messages is
rejected with 403 for every authenticated user who is neither the
buyer, nor the seller, nor an admin, and succeeds only for those three;
filing a dispute is rejected with 403 for every authenticated
non-participant (including admins) and succeeds only for the buyer or
seller. -/
theorem C6_participant_authorization (st : ServerState) (now : ℕ)
    (uid oid text reason : String) (o : Order)
    (hfind : st.orders.find? (fun o' => o'.id == oid) = some o)
    (hoid : oid ≠ "") (htext : text ≠ "") (hreason : reason ≠ "") :
    ((uid ≠ o.buyerId ∧ uid ≠ o.sellerId ∧ isAdminUser st (some uid) = false) →
      getMessages st (some uid) (some oid) =
        (err 403 "Not authorised to view messages", st) ∧
      postMessage st now (some uid) oid text =
        (err 403 "Not authorised to send message", st)) ∧
    ((uid ≠ o.buyerId ∧ uid ≠ o.sellerId) →
      fileDispute st now (some uid) oid reason =
        (err 403 "Not authorised to dispute", st)) ∧
    ((getMessages st (some uid) (some oid)).1.code = 200 →
      uid = o.buyerId ∨ uid = o.sellerId ∨ isAdminUser st (some uid) = true) ∧
    ((postMessage st now (some uid) oid text).1.code = 201 →
      uid = o.buyerId ∨ uid = o.sellerId ∨ isAdminUser st (some uid) = true) ∧
    ((fileDispute st now (some uid) oid reason).1.code = 201 →
      uid = o.buyerId ∨ uid = o.sellerId) := by
  have hmt : ¬ (oid = "" ∨ text = "") := by simp [hoid, htext]
  have hmr : ¬ (oid = "" ∨ reason = "") := by simp [hoid, hreason]
  have hviewer : (uid ≠ o.buyerId ∧ uid ≠ o.sellerId ∧
      isAdminUser st (some uid) = false) →
      getMessages st (some uid) (some oid) =
        (err 403 "Not authorised to view messages", st) := by
    rintro ⟨hb, hs, hadm⟩
    have hcond : (some uid : Option String) ≠ some o.buyerId ∧
        (some uid : Option String) ≠ some o.sellerId ∧
        ¬ isAdminUser st (some uid) = true := by
      refine ⟨by simpa using hb, by simpa using hs, by simp [hadm]⟩
    simp only [getMessages, if_neg hoid, hfind, if_pos hcond]
  have hposter : (uid ≠ o.buyerId ∧ uid ≠ o.sellerId ∧
      isAdminUser st (some uid) = false) →
      postMessage st now (some uid) oid text =
        (err 403 "Not authorised to send message", st) := by
    rintro ⟨hb, hs, hadm⟩
    have hcond : o.buyerId ≠ uid ∧ o.sellerId ≠ uid ∧
        ¬ isAdminUser st (some uid) = true :=
      ⟨fun hc => hb hc.symm, fun hc => hs hc.symm, by simp [hadm]⟩
    simp only [postMessage, if_neg hmt, hfind, if_pos hcond]
  have hfiler : (uid ≠ o.buyerId ∧ uid ≠ o.sellerId) →
      fileDispute st now (some uid) oid reason =
        (err 403 "Not authorised to dispute", st) := by
    rintro ⟨hb, hs⟩
    have hcond : o.buyerId ≠ uid ∧ o.sellerId ≠ uid :=
      ⟨fun hc => hb hc.symm, fun hc => hs hc.symm⟩
    simp only [fileDispute, if_neg hmr, hfind, if_pos hcond]
  refine ⟨fun hp => ⟨hviewer hp, hposter hp⟩, hfiler, ?_, ?_, ?_⟩
  · intro h200
    by_contra hneg
    push_neg at hneg
    obtain ⟨hb, hs, hadm⟩ := hneg
    have hadm' : isAdminUser st (some uid) = false := by
      cases hbool : isAdminUser st (some uid)
      · rfl
      · exact absurd hbool hadm
    rw [hviewer ⟨hb, hs, hadm'⟩] at h200
    simp [err] at h200
  · intro h201
    by_contra hneg
    push_neg at hneg
    obtain ⟨hb, hs, hadm⟩ := hneg
    have hadm' : isAdminUser st (some uid) = false := by
      cases hbool : isAdminUser st (some uid)
      · rfl
      · exact absurd hbool hadm
    rw [hposter ⟨hb, hs, hadm'⟩] at h201
    simp [err] at h201
  · intro h201
    by_contra hneg
    push_neg at hneg
    rw [hfiler hneg] at h201
    simp [err] at h201

/-- Claim C7 (amended): a single admin is auto-provisioned at startup
when the loaded users contain none, and startup changes nothing when an
admin exists; but the count of admins is not invariant under the public
operations: registration accepts the role string `admin` (see the
counterexample raising the count to 2), and admin delete-user can
remove the last admin, dropping the count to 0. -/
theorem C7_admin_provisioning :
    (∀ (now : ℕ) (us : List User) (gs : List Gig) (os : List Order) (ds : List Dispute),
      us.countP (fun u => u.role == "admin") = 0 →
      ((initState now us gs os ds).users.countP (fun u => u.role == "admin")) = 1) ∧
    (∀ (now : ℕ) (us : List User) (gs : List Gig) (os : List Order) (ds : List Dispute),
      (∃ u ∈ us, u.role = "admin") → (initState now us gs os ds).users = us) ∧
    ((deleteUser initialState (some "1") "1").2.users.countP
      (fun u => u.role == "admin") = 0) := by
  refine ⟨?_, ?_, by decide⟩
  · intro now us gs os ds h0
    have hall := List.countP_eq_zero.1 h0
    have hcond : ¬ (us.any (fun u => u.role == "admin") = true) := by
      rw [List.any_eq_true]
      rintro ⟨u, hu, hrole⟩
      exact hall u hu hrole
    simp only [initState, if_neg hcond]
    rw [List.countP_append, h0]
    simp [defaultAdmin, List.countP_cons]
  · intro now us gs os ds hex
    obtain ⟨u, hu, hrole⟩ := hex
    have hany : us.any (fun u => u.role == "admin") = true :=
      List.any_eq_true.2 ⟨u, hu, by simp [hrole]⟩
    simp only [initState, if_pos hany]

/-- Claim C8 (amended): after any single API call, every user either is
a fresh user with wallet 0, keeps the wallet of some pre-state user, or
— only when the call is an escrow release (complete-order, or
resolve-dispute with `releaseToSeller`) — carries a pre-state wallet
plus the escrow of some pre-state order.  (Escrow is not validated
non-negative, so such a change can decrease the balance below zero; see
the counterexample.) -/
theorem C8_wallet_changes_only_by_escrow_release (st : ServerState) (a : Action) :
    ∀ u' ∈ (applyAction st a).users,
      u'.wallet = some 0 ∨ (∃ u ∈ st.users, u'.wallet = u.wallet) ∨
      (isEscrowRelease a = true ∧
        ∃ u ∈ st.users, ∃ o ∈ st.orders, u'.wallet = JsNum.add u.wallet o.escrow) := by
  have hkeep : ∀ u' ∈ st.users,
      u'.wallet = some 0 ∨ (∃ u ∈ st.users, u'.wallet = u.wallet) ∨
      (isEscrowRelease a = true ∧
        ∃ u ∈ st.users, ∃ o ∈ st.orders, u'.wallet = JsNum.add u.wallet o.escrow) :=
    fun u' hu' => Or.inr (Or.inl ⟨u', hu', rfl⟩)
  cases a with
  | register now u e p r =>
    simp only [applyAction, register]
    split
    · exact hkeep
    · split
      · exact hkeep
      · intro u' hu'
        rcases List.mem_append.1 hu' with hu' | hu'
        · exact Or.inr (Or.inl ⟨u', hu', rfl⟩)
        · rcases List.mem_cons.1 hu' with rfl | hfalse
          · exact Or.inl rfl
          · simp at hfalse
  | createGig now uid t d pr c =>
    simp only [applyAction, createGig]
    split
    · exact hkeep
    · split
      · exact hkeep
      · split
        · exact hkeep
        · split
          · exact hkeep
          · exact hkeep
  | placeOrder now uid g =>
    simp only [applyAction, placeOrder]
    split
    · exact hkeep
    · split
      · exact hkeep
      · split
        · exact hkeep
        · split
          · exact hkeep
          · exact hkeep
  | completeOrder now uid oid =>
    simp only [applyAction, completeOrder]
    split
    · exact hkeep
    · split
      · exact hkeep
      · next order hfind =>
        split
        · exact hkeep
        · split
          · exact hkeep
          · intro u' hu'
            rcases mem_updateFirst hu' with hu' | ⟨y, hy, rfl⟩
            · exact Or.inr (Or.inl ⟨u', hu', rfl⟩)
            · exact Or.inr (Or.inr ⟨rfl, y, hy,
                order, List.mem_of_find?_eq_some hfind, rfl⟩)
  | postMessage now uid oid t =>
    simp only [applyAction, postMessage]
    split
    · exact hkeep
    · split
      · exact hkeep
      · split
        · exact hkeep
        · split
          · exact hkeep
          · exact hkeep
  | fileDispute now uid oid r =>
    simp only [applyAction, fileDispute]
    split
    · exact hkeep
    · split
      · exact hkeep
      · split
        · exact hkeep
        · split
          · exact hkeep
          · exact hkeep
  | deleteGig uid g =>
    simp only [applyAction, deleteGig]
    split
    · exact hkeep
    · split
      · exact hkeep
      · exact hkeep
  | deleteUser auid uid =>
    simp only [applyAction, deleteUser]
    split
    · exact hkeep
    · split
      · intro u' hu'
        exact Or.inr (Or.inl ⟨u', mem_of_mem_eraseFirst hu', rfl⟩)
      · exact hkeep
  | resolveDispute now uid dId resol rel =>
    simp only [applyAction, resolveDispute]
    split
    · exact hkeep
    · split
      · exact hkeep
      · split
        · exact hkeep
        · split
          · exact hkeep
          · next order hofind =>
            intro u' hu'
            by_cases hrel : rel = true
            · rw [if_pos hrel] at hu'
              rcases mem_updateFirst hu' with hu' | ⟨y, hy, rfl⟩
              · exact Or.inr (Or.inl ⟨u', hu', rfl⟩)
              · exact Or.inr (Or.inr ⟨by simp [isEscrowRelease, hrel], y, hy,
                  order, List.mem_of_find?_eq_some hofind, rfl⟩)
            · rw [if_neg hrel] at hu'
              exact Or.inr (Or.inl ⟨u', hu', rfl⟩)

/-- Claim C9 (amended): no two disputes ever share an identifier in a
reachable state (disputes are never deleted, and each new dispute takes
the next decimal id).  User, gig and order identifiers, by contrast,
are reused after admin deletions — see the counterexample, where two
distinct users end up with id "3". -/
theorem C9_dispute_ids_distinct {st : ServerState} (h : Reachable st) :
    (st.disputes.map Dispute.id).Nodup :=
  (disputeIdsInv_reachable h).2

/-- Claim C10: admin delete-user on an existing user id removes the
first user with that id and cascades, leaving no gig with that seller
and no order with that buyer or seller; on an absent id it fails 404
without mutation. -/
theorem C10_delete_user_cascades (st : ServerState) (auid uid : String)
    (hadmin : isAdminUser st (some auid) = true) :
    ((∃ u ∈ st.users, u.id = uid) →
      deleteUser st (some auid) uid =
        (ok 200,
         { st with
           users := eraseFirst (fun u => u.id == uid) st.users,
           gigs := st.gigs.filter (fun g => !(g.sellerId == uid)),
           orders := st.orders.filter
             (fun o => !(o.buyerId == uid) && !(o.sellerId == uid)) }) ∧
      (∀ g ∈ (deleteUser st (some auid) uid).2.gigs, g.sellerId ≠ uid) ∧
      (∀ o ∈ (deleteUser st (some auid) uid).2.orders,
        o.buyerId ≠ uid ∧ o.sellerId ≠ uid)) ∧
    ((∀ u ∈ st.users, u.id ≠ uid) →
      deleteUser st (some auid) uid = (err 404 "User not found", st)) := by
  have hA : ¬¬ isAdminUser st (some auid) = true := fun hc => hc hadmin
  constructor
  · rintro ⟨u, hu, hid⟩
    have hsome : (st.users.find? (fun u' => u'.id == uid)).isSome :=
      List.find?_isSome.2 ⟨u, hu, by simp [hid]⟩
    have heq : deleteUser st (some auid) uid =
        (ok 200,
         { st with
           users := eraseFirst (fun u' => u'.id == uid) st.users,
           gigs := st.gigs.filter (fun g => !(g.sellerId == uid)),
           orders := st.orders.filter
             (fun o => !(o.buyerId == uid) && !(o.sellerId == uid)) }) := by
      simp only [deleteUser, if_neg hA, if_pos hsome]
    refine ⟨heq, ?_, ?_⟩
    · intro g hg
      rw [heq] at hg
      have hmem := List.mem_filter.1 hg
      have := hmem.2
      simp only [Bool.not_eq_true', beq_eq_false_iff_ne] at this
      exact this
    · intro o ho
      rw [heq] at ho
      have hmem := List.mem_filter.1 ho
      have := hmem.2
      simp only [Bool.and_eq_true, Bool.not_eq_true', beq_eq_false_iff_ne] at this
      exact this
  · intro hall
    have hnone : st.users.find? (fun u' => u'.id == uid) = none := by
      rw [List.find?_eq_none]
      intro u hu
      simp [hall u hu]
    have hns : ¬ (st.users.find? (fun u' => u'.id == uid)).isSome = true := by
      rw [hnone]
      simp
    simp only [deleteUser, if_neg hA, if_neg hns]

/-! ### Witnesses and counterexamples -/

/-- Witness for C1 at a concrete reachable state. -/
theorem C1_witness : Reachable stOrder ∧ oC1.escrow = some 0 :=
  ⟨⟨0, actsOrder, rfl⟩, by
    have h := (C1_completed_orders_zero_escrow stOrder ⟨0, actsOrder, rfl⟩).1
      9 (some "3") "1" (by decide)
    exact h.1 oC1 (by decide) (by decide)⟩

/-- Counterexample to C1 as stated: after a successful complete-order
call from a reachable state, an order on the zero-priced gig is still
`in_progress` with escrow 0, so `completed ⇔ escrow = 0` fails. -/
theorem C1_counterexample :
    (completeOrder stZero 9 (some "3") "2").1.code = 200 ∧
    ((completeOrder stZero 9 (some "3") "2").2.orders.map
      (fun o => (o.id, o.status, o.escrow))) =
      [("1", "in_progress", some 0), ("2", "completed", some 0)] ∧
    ¬ (∀ o ∈ (completeOrder stZero 9 (some "3") "2").2.orders,
        o.status = "completed" ↔ o.escrow = some 0) := by decide

/-- Witness for C2 at a concrete reachable state. -/
theorem C2_witness : (completeOrder stOrder 9 (some "3") "1").1 = ok 200 := by
  obtain ⟨hEA, s, hsmem, hs, heq, hafter⟩ :=
    C2_complete_order_credits_seller stOrder ⟨0, actsOrder, rfl⟩ 9 "3" "1" oW
      (by decide) (by decide) (Or.inl (by decide))
  rw [heq]

/-- Witness for C3 at a concrete reachable state. -/
theorem C3_witness :
    (resolveDispute stDispute 9 (some "1") "1" (some "released") true).1 = ok 200 := by
  obtain ⟨s, hsmem, hs, heq⟩ :=
    C3_resolve_dispute_settles stDispute ⟨0, actsDispute, rfl⟩ 9 "1" "1"
      (some "released") true dW oW (by decide) (by decide) (by decide) (by decide)
  rw [heq]

/-- Witness for C4 at a concrete state with a completed order and a
resolved dispute. -/
theorem C4_witness :
    completeOrder stResolved 9 (some "3") "1" =
      (err 400 "Order already completed", stResolved) ∧
    resolveDispute stResolved 9 (some "1") "1" none false =
      (err 400 "Dispute already resolved", stResolved) :=
  C4_terminal_repeat_fails stResolved 9 "3" "1" "1" "1" none false oR dR
    (by decide) (by decide) (Or.inl (by decide)) (by decide) (by decide) (by decide)

/-- Witness for C5 (amended) at the orphaned dispute. -/
theorem C5_witness :
    (resolveDispute stOrphan 9 (some "1") "1" (some "r") false).1.code = 200 := by
  rw [C5_resolve_with_missing_order stOrphan 9 "1" "1" (some "r") false dW
    (by decide) (by decide) (by decide) (by decide)]
  rfl

/-- Counterexample to C5 as stated: the dispute's order is gone, yet
resolve-dispute answers 200 (not 404) and mutates the dispute. -/
theorem C5_counterexample :
    stOrphan.disputes.map (fun d => (d.status, d.orderId)) = [("open", "1")] ∧
    stOrphan.orders = [] ∧
    (resolveDispute stOrphan 9 (some "1") "1" (some "r") false).1 = ok 200 ∧
    (resolveDispute stOrphan 9 (some "1") "1" (some "r") false).2.disputes.map
      Dispute.status = ["resolved"] := by decide

/-- Witness for C6: user "4" is authenticated but neither participant
nor admin. -/
theorem C6_witness :
    getMessages stThree (some "4") (some "1") =
      (err 403 "Not authorised to view messages", stThree) ∧
    fileDispute stThree 9 (some "4") "1" "r" =
      (err 403 "Not authorised to dispute", stThree) := by
  have h := C6_participant_authorization stThree 9 "4" "1" "t" "r" oW
    (by decide) (by decide) (by decide) (by decide)
  exact ⟨(h.1 ⟨by decide, by decide, by decide⟩).1, h.2.1 ⟨by decide, by decide⟩⟩

/-- Witness for C7 (amended): provisioning from an empty user file. -/
theorem C7_witness :
    ([] : List User).countP (fun u => u.role == "admin") = 0 ∧
    (initState 5 [] [] [] []).users.countP (fun u => u.role == "admin") = 1 :=
  ⟨by decide, C7_admin_provisioning.1 5 [] [] [] [] (by decide)⟩

/-- Counterexample to C7 as stated: a public registration with role
"admin" succeeds and raises the admin count to 2. -/
theorem C7_counterexample :
    initialState.users.countP (fun u => u.role == "admin") = 1 ∧
    (register initialState 1 "eve" "eve@x" "pw" "admin").1 = ok 201 ∧
    (register initialState 1 "eve" "eve@x" "pw" "admin").2.users.countP
      (fun u => u.role == "admin") = 2 := by decide

/-- Witness for C8 (amended), at the registration of a first seller. -/
theorem C8_witness :
    (defaultAdmin 0 0).wallet = some 0 ∨
    (∃ u ∈ initialState.users, (defaultAdmin 0 0).wallet = u.wallet) ∨
    (isEscrowRelease (.register 1 "s" "s@x" "pw" "seller") = true ∧
      ∃ u ∈ initialState.users, ∃ o ∈ initialState.orders,
        (defaultAdmin 0 0).wallet = JsNum.add u.wallet o.escrow) :=
  C8_wallet_changes_only_by_escrow_release initialState
    (.register 1 "s" "s@x" "pw" "seller") (defaultAdmin 0 0) (by decide)

/-- Counterexample to C8 as stated: completing an order on a gig priced
-50 moves the seller wallet from 0 to -50 — a decrease, below zero. -/
theorem C8_counterexample :
    (run 0 actsNegPre).users.map (fun u => (u.id, u.wallet)) =
      [("1", some 0), ("2", some 0), ("3", some 0)] ∧
    (run 0 actsNeg).users.map (fun u => (u.id, u.wallet)) =
      [("1", some 0), ("2", some (-50)), ("3", some 0)] ∧
    ¬ (0 : ℚ) ≤ -50 :=
  ⟨by decide, by decide, by norm_num⟩

/-- Witness for C9 (amended) at a state with two disputes. -/
theorem C9_witness :
    Reachable stDispute2 ∧ (stDispute2.disputes.map Dispute.id).Nodup :=
  ⟨⟨0, actsDispute2, rfl⟩, C9_dispute_ids_distinct ⟨0, actsDispute2, rfl⟩⟩

/-- Counterexample to C9 as stated: after a deletion, a new user gets
an id already in use — two distinct users with id "3". -/
theorem C9_counterexample :
    (run 0 actsDup).users.map (fun u => (u.id, u.username)) =
      [("1", "admin"), ("3", "b"), ("3", "c")] ∧
    ¬ ((run 0 actsDup).users.map User.id).Nodup := by decide

/-- Witness for C10: the admin deletes the seller; the gig and the
order disappear with them. -/
theorem C10_witness :
    (deleteUser stOrder (some "1") "2").1 = ok 200 ∧
    (deleteUser stOrder (some "1") "2").2.gigs = [] ∧
    (deleteUser stOrder (some "1") "2").2.orders = [] := by
  have h := (C10_delete_user_cascades stOrder "1" "2" (by decide)).1
    ⟨uSeller, by decide, by decide⟩
  rw [h.1]
  exact ⟨rfl, by decide, by decide⟩

end Bazimn
